import Mathlib

/-!
Verification of the TinyShell job-control subsystem.

The definitions below are a shallow embedding of the repository's C++ code:
the job table (jobs.hpp / jobs.cpp: addJob, removeJob, getJob, updateJobState,
printJobs, getMostRecentJob, markJobAsCurrent) and the pipeline executor
(tinyshell.cpp: executePipeline).  Machine integers (int, pid_t) are modelled
as Int; std::vector as List; std::string as String; console output as the
String values a call produces.
-/

namespace TinyShell

/-- The job states from jobs.hpp: enum JobState { RUNNING, STOPPED, DONE }. -/
inductive JobState where
  | RUNNING
  | STOPPED
  | DONE
deriving DecidableEq, Repr

/-- stateStr computed by the switch in printJobs (jobs.cpp). -/
def stateStr : JobState → String
  | .RUNNING => "Running"
  | .STOPPED => "Stopped"
  | .DONE => "Done"

/-- struct Job from jobs.hpp (the job-control version, with is_current and
notified fields). -/
structure Job where
  jobId : Int
  pgid : Int
  command : String
  state : JobState
  pids : List Int
  is_current : Bool
  notified : Bool
deriving DecidableEq, Repr

instance : Inhabited Job := ⟨⟨0, 0, "", .RUNNING, [], false, false⟩⟩

/-- The shell's global mutable state relevant to the job table:
`std::vector<Job> jobTable;` and `int nextJobId = 1;` (jobs.hpp). -/
structure ShellSt where
  jobTable : List Job
  nextJobId : Int
deriving DecidableEq, Repr

/-- Initial state: empty table, `int nextJobId = 1`. -/
def initSt : ShellSt := ⟨[], 1⟩

/-- The `j.is_current = false;` loop body in addJob. -/
def clearCurrent (j : Job) : Job := {j with is_current := false}

/-- addJob from jobs.cpp: builds the job with id `nextJobId++`,
`is_current = true`, `notified = false`; clears `is_current` on every job
already in the table; appends the new job; prints "[jobId] pgid".
The returned String is the line written to stdout. -/
def addJob (pgid : Int) (command : String) (state : JobState) (pids : List Int)
    (s : ShellSt) : ShellSt × String :=
  let job : Job := ⟨s.nextJobId, pgid, command, state, pids, true, false⟩
  (⟨(s.jobTable.map clearCurrent) ++ [job], s.nextJobId + 1⟩,
   "[" ++ toString job.jobId ++ "] " ++ toString pgid)

/-- The `jobTable.erase(it)` effect of removeJob's loop: erase the first
entry whose jobId matches. -/
def eraseFirst (id : Int) : List Job → List Job
  | [] => []
  | j :: rest => if j.jobId = id then rest else j :: eraseFirst id rest

/-- The `jobTable.back().is_current = true;` step of removeJob: set the
is_current flag on the last element (no-op on an empty table). -/
def setBackCurrent : List Job → List Job
  | [] => []
  | [j] => [{j with is_current := true}]
  | j :: k :: rest => j :: setBackCurrent (k :: rest)

/-- removeJob from jobs.cpp: find the first entry with the given jobId;
if found, erase it and, if the table is then non-empty, mark its last
entry current; if no entry matches, do nothing. -/
def removeJob (id : Int) (tbl : List Job) : List Job :=
  if tbl.any (fun j => j.jobId == id) then setBackCurrent (eraseFirst id tbl)
  else tbl

/-- getJob from jobs.cpp: first entry with the given jobId, or null. -/
def getJob (id : Int) : List Job → Option Job
  | [] => none
  | j :: rest => if j.jobId = id then some j else getJob id rest

/-- getJobByPgid from jobs.cpp: first entry with the given pgid, or null. -/
def getJobByPgid (pgid : Int) : List Job → Option Job
  | [] => none
  | j :: rest => if j.pgid = pgid then some j else getJobByPgid pgid rest

/-- updateJobState from jobs.cpp: `getJob` then, through the returned
pointer, overwrite the state field of that (first matching) entry;
silently does nothing when getJob returns null. -/
def updateJobState (id : Int) (newState : JobState) : List Job → List Job
  | [] => []
  | j :: rest =>
    if j.jobId = id then {j with state := newState} :: rest
    else j :: updateJobState id newState rest

/-- One listing line of printJobs (jobs.cpp): "[" << jobId << "]",
'+' if is_current else '-', " " << stateStr, then `12 - stateStr.length()`
padding spaces, the command, and " &" when the state is RUNNING. -/
def jobLine (j : Job) : String :=
  let st := stateStr j.state
  let padding := 12 - st.length
  "[" ++ toString j.jobId ++ "]" ++ (if j.is_current then "+" else "-")
    ++ " " ++ st ++ String.mk (List.replicate padding ' ')
    ++ j.command ++ (if j.state = .RUNNING then " &" else "")

/-- printJobs from jobs.cpp: one line per table entry in order, skipping
jobs whose state is DONE.  The returned list is the sequence of lines
written to stdout (empty table prints nothing). -/
def printJobs : List Job → List String
  | [] => []
  | j :: rest =>
    if j.state = .DONE then printJobs rest else jobLine j :: printJobs rest

/-- getMostRecentJob from jobs.cpp: null on an empty table; otherwise the
first entry with is_current set, falling back to the last entry. -/
def getMostRecentJob (tbl : List Job) : Option Job :=
  if tbl.isEmpty then none
  else
    match tbl.find? (fun j => j.is_current) with
    | some j => some j
    | none => tbl.getLast?

/-- markJobAsCurrent from jobs.cpp:
`for (auto& job : jobTable) job.is_current = (job.jobId == jobId);`. -/
def markJobAsCurrent (id : Int) (tbl : List Job) : List Job :=
  tbl.map (fun j => {j with is_current := j.jobId == id})

/-- The job-table operations quantified over by the spec's invariants. -/
inductive Op where
  | add (pgid : Int) (command : String) (state : JobState) (pids : List Int)
  | remove (id : Int)
  | markCurrent (id : Int)

/-- Effect of one operation on the shell state (output discarded). -/
def step (s : ShellSt) : Op → ShellSt
  | .add p c st pids => (addJob p c st pids s).1
  | .remove id => {s with jobTable := removeJob id s.jobTable}
  | .markCurrent id => {s with jobTable := markJobAsCurrent id s.jobTable}

/-- Run a sequence of operations from the initial state. -/
def runOps (ops : List Op) : ShellSt := ops.foldl step initSt

/-- jobIds of a table, in insertion order. -/
def jobIds (tbl : List Job) : List Int := tbl.map (·.jobId)

/-- Number of entries with is_current set. -/
def countCurrent (tbl : List Job) : Nat :=
  (tbl.filter (·.is_current)).length

/-- struct ParsedCommand from tinyshell.hpp: argument list plus the
redirection targets and append flags recognised by parseCommandLine. -/
structure ParsedCommand where
  args : List String
  inputFile : String
  outputFile : String
  errorFile : String
  appendMode : Bool
  appendErrorMode : Bool
deriving DecidableEq, Repr, Inhabited

/-- The OS facts a pipeline child's control flow depends on:
what findInPath resolves a command name to (none = not found), whether
open(2) on a redirection target succeeds, and whether execve(2) succeeds
on a resolved path. -/
structure ExecEnv where
  resolve : String → Option String
  openOk : String → Bool
  execOk : String → Bool

/-- Where a child's standard input/output ends up after the dup2 calls:
inherited from the shell, a pipe end (by pipe index), or an opened file. -/
inductive StdSrc where
  | inherit
  | pipeRead (i : Nat)
  | pipeWrite (i : Nat)
  | file (path : String)
deriving DecidableEq, Repr

/-- How a forked pipeline child ends up: terminated via exit(code), or
running its program image with the given stdin/stdout wiring. -/
inductive ChildOutcome where
  | exited (code : Nat)
  | running (path : String) (stdin : StdSrc) (stdout : StdSrc)
deriving DecidableEq, Repr

/-- The child branch (pid == 0) of the version-2 executePipeline
(tinyshell.cpp of the redirection/piping version), for stage i of an
N-stage pipeline, in the code's order: dup2 the previous pipe's read
end onto stdin when i > 0; dup2 this stage's pipe write end onto stdout
when i < N-1; close every pipe fd; then input redirection (open failure
→ exit(1)), output redirection (open failure → exit(1)), findInPath
(empty → exit(127)), execve (return → exit(1)).  The job-control child
(childRunJC) performs the same steps plus error redirection and
process-group/signal setup. -/
def childRun (env : ExecEnv) (pl : List ParsedCommand) (i : Nat) : ChildOutcome :=
  let n := pl.length
  let cmd := pl.getD i default
  let sin0 : StdSrc := if 0 < i then .pipeRead (i - 1) else .inherit
  let sout0 : StdSrc := if i < n - 1 then .pipeWrite i else .inherit
  if cmd.inputFile ≠ "" ∧ env.openOk cmd.inputFile = false then .exited 1
  else
    let sin1 := if cmd.inputFile ≠ "" then StdSrc.file cmd.inputFile else sin0
    if cmd.outputFile ≠ "" ∧ env.openOk cmd.outputFile = false then .exited 1
    else
      let sout1 := if cmd.outputFile ≠ "" then StdSrc.file cmd.outputFile else sout0
      match env.resolve (cmd.args.headD "") with
      | none => .exited 127
      | some p => if env.execOk p then .running p sin1 sout1 else .exited 1

/-- The child branch (pid == 0) of the job-control executePipeline
(the version-3 tinyshell.cpp): after the setpgid call (first stage:
setpgid(0, 0), becoming leader of a new group; later stages:
setpgid(0, pgid), joining the first stage's group) and restoring
default signal dispositions, the child does the same pipe wiring as the
version-2 child, closes every pipe fd, then runs setupRedirections
(input open failure → exit(1), output open failure → exit(1), error
open failure → exit(1), in that order), then findInPath (empty →
exit(127)) and execve (return → exit(1)).  The stderr wiring does not
appear in the outcome; the claims never mention it. -/
def childRunJC (env : ExecEnv) (pl : List ParsedCommand) (i : Nat) : ChildOutcome :=
  let n := pl.length
  let cmd := pl.getD i default
  let sin0 : StdSrc := if 0 < i then .pipeRead (i - 1) else .inherit
  let sout0 : StdSrc := if i < n - 1 then .pipeWrite i else .inherit
  if cmd.inputFile ≠ "" ∧ env.openOk cmd.inputFile = false then .exited 1
  else
    let sin1 := if cmd.inputFile ≠ "" then StdSrc.file cmd.inputFile else sin0
    if cmd.outputFile ≠ "" ∧ env.openOk cmd.outputFile = false then .exited 1
    else
      let sout1 := if cmd.outputFile ≠ "" then StdSrc.file cmd.outputFile else sout0
      if cmd.errorFile ≠ "" ∧ env.openOk cmd.errorFile = false then .exited 1
      else
        match env.resolve (cmd.args.headD "") with
        | none => .exited 127
        | some p => if env.execOk p then .running p sin1 sout1 else .exited 1

/-- One forked member of a pipeline: its pid, the process-group id it
ends up in after the executor's setpgid calls, and its outcome. -/
structure ChildProc where
  pid : Int
  pgid : Int
  outcome : ChildOutcome
deriving DecidableEq, Repr

instance : Inhabited ChildProc := ⟨⟨0, 0, .exited 0⟩⟩

/-- Parent-side result of executePipeline: how many pipes were created
and the children that were forked. -/
structure PipelineResult where
  numPipes : Nat
  children : List ChildProc
deriving DecidableEq, Repr

/-- executePipeline from the job-control (version-3) tinyshell.cpp, run
by a shell whose own process group is shellPgid, with fork returning
pids.getD i 0 for stage i: it creates numCmds - 1 pipes, then forks one
child per stage.  The first child calls setpgid(0, 0), making its own
pid the group id; the parent stores that pid in pgid and every later
child calls setpgid(0, pgid), while the parent mirrors each child with
setpgid(pid, pgid) — so every member's process group is the first
stage's pid.  Each child then behaves as childRunJC describes.  (The
job registration and the foreground wait that follow the forks are not
modelled; no claim mentions them.) -/
def executePipeline (env : ExecEnv) (pl : List ParsedCommand)
    (_shellPgid : Int) (pids : List Int) : PipelineResult :=
  { numPipes := pl.length - 1,
    children := (List.range pl.length).map
      (fun i => ⟨pids.getD i 0, pids.getD 0 0, childRunJC env pl i⟩) }

/-- The listing line as the (amended) spec words it:
[jobId]<+|-> <State>, the state padded on the right to 12 characters,
then the command, then " &" exactly when the state is Running. -/
def specListingLine (j : Job) : String :=
  "[" ++ toString j.jobId ++ "]" ++ (if j.is_current then "+" else "-")
    ++ " " ++ stateStr j.state
    ++ String.mk (List.replicate (12 - (stateStr j.state).length) ' ')
    ++ j.command ++ (if j.state = .RUNNING then " &" else "")

/-- The listing as the spec words it: one specListingLine per non-Done
job, in table order, and no other line. -/
def specListing (tbl : List Job) : List String :=
  (tbl.filter (fun j => decide (j.state ≠ .DONE))).map specListingLine

/-- Invariant carried through every operation sequence: jobIds strictly
increasing in insertion order, every live id at least 1 and below
nextJobId, and nextJobId at least 1. -/
def TableInv (s : ShellSt) : Prop :=
  (jobIds s.jobTable).Pairwise (· < ·)
    ∧ (∀ i ∈ jobIds s.jobTable, 1 ≤ i ∧ i < s.nextJobId)
    ∧ 1 ≤ s.nextJobId

end TinyShell

namespace TinyShell

-- sanity examples (concrete evaluation of the model)
example : (addJob 42 "sleep 30" .RUNNING [42] initSt).2 = "[1] 42" := by rfl

example :
    printJobs [⟨1, 42, "sleep 30", .RUNNING, [42], true, false⟩]
      = ["[1]+ Running     sleep 30 &"] := by rfl

example :
    countCurrent (runOps [.add 10 "a" .RUNNING [10], .add 11 "b" .RUNNING [11],
      .add 12 "c" .RUNNING [12], .markCurrent 1, .remove 2]).jobTable = 2 := by
  rfl

-- helper lemmas about getMostRecentJob

lemma getMostRecentJob_eq_none_iff (tbl : List Job) :
    getMostRecentJob tbl = none ↔ tbl = [] := by
  cases tbl with
  | nil => simp [getMostRecentJob]
  | cons x xs =>
    cases hf : (x :: xs).find? (fun j => j.is_current) with
    | some j => simp [getMostRecentJob, hf]
    | none => simp [getMostRecentJob, hf]

lemma getMostRecentJob_of_find? {tbl : List Job} {j : Job}
    (hf : tbl.find? (fun j => j.is_current) = some j) :
    getMostRecentJob tbl = some j := by
  cases tbl with
  | nil => simp at hf
  | cons x xs => simp [getMostRecentJob, hf]

lemma getMostRecentJob_of_find?_none {tbl : List Job}
    (h : tbl.find? (fun j => j.is_current) = none) :
    getMostRecentJob tbl = tbl.getLast? := by
  cases tbl with
  | nil => simp [getMostRecentJob]
  | cons x xs => simp [getMostRecentJob, h]

/-- C9: getMostRecentJob returns null exactly on the empty table; when a
job marked current exists it returns a current job from the table; and
when no job is marked it falls back to the last-inserted job. -/
theorem spec_C9 (tbl : List Job) :
    (getMostRecentJob tbl = none ↔ tbl = [])
    ∧ ((∃ j ∈ tbl, j.is_current = true) →
        ∃ j, getMostRecentJob tbl = some j ∧ j ∈ tbl ∧ j.is_current = true)
    ∧ ((∀ j ∈ tbl, j.is_current = false) →
        getMostRecentJob tbl = tbl.getLast?) := by
  refine ⟨getMostRecentJob_eq_none_iff tbl, ?_, ?_⟩
  · rintro ⟨j, hj, hcur⟩
    have hs : (tbl.find? (fun j => j.is_current)).isSome :=
      List.find?_isSome.mpr ⟨j, hj, hcur⟩
    obtain ⟨j', hj'⟩ := Option.isSome_iff_exists.mp hs
    exact ⟨j', getMostRecentJob_of_find? hj', List.mem_of_find?_eq_some hj',
      List.find?_some hj'⟩
  · intro h
    refine getMostRecentJob_of_find?_none (List.find?_eq_none.mpr ?_)
    intro x hx
    simp [h x hx]

/-- Witness for C9 at a concrete table with no current job. -/
theorem spec_C9_witness :
    getMostRecentJob [⟨1, 10, "a", .STOPPED, [10], false, false⟩]
      = ([⟨1, 10, "a", .STOPPED, [10], false, false⟩] : List Job).getLast? :=
  (spec_C9 _).2.2 (by decide)

-- helper lemmas about updateJobState

lemma updateJobState_of_not_mem (id : Int) (ns : JobState) :
    ∀ (tbl : List Job), (∀ j ∈ tbl, j.jobId ≠ id) →
      updateJobState id ns tbl = tbl
  | [], _ => rfl
  | j :: rest, h => by
    rw [updateJobState, if_neg (h j (List.mem_cons_self j rest)),
      updateJobState_of_not_mem id ns rest (fun x hx => h x (List.mem_cons_of_mem j hx))]

lemma updateJobState_first (id : Int) (ns : JobState) :
    ∀ (l1 : List Job) (j : Job) (l2 : List Job), j.jobId = id →
      (∀ x ∈ l1, x.jobId ≠ id) →
      updateJobState id ns (l1 ++ j :: l2) = l1 ++ {j with state := ns} :: l2
  | [], j, l2, hj, _ => by simp [updateJobState, hj]
  | x :: l1, j, l2, hj, hl1 => by
    rw [List.cons_append, updateJobState,
      if_neg (hl1 x (List.mem_cons_self x l1)),
      updateJobState_first id ns l1 j l2 hj
        (fun y hy => hl1 y (List.mem_cons_of_mem x hy)),
      List.cons_append]

/-- C10: updateJobState rewrites only the state field of the (first) job
whose jobId matches, leaving its other fields and every other job
untouched; with no matching job the table is returned unchanged. -/
theorem spec_C10 (id : Int) (ns : JobState) (tbl : List Job) :
    ((∀ j ∈ tbl, j.jobId ≠ id) → updateJobState id ns tbl = tbl)
    ∧ ∀ l1 j l2, tbl = l1 ++ j :: l2 → j.jobId = id →
        (∀ x ∈ l1, x.jobId ≠ id) →
        updateJobState id ns tbl = l1 ++ {j with state := ns} :: l2 :=
  ⟨updateJobState_of_not_mem id ns tbl,
   fun l1 j l2 ht hj hl1 => ht ▸ updateJobState_first id ns l1 j l2 hj hl1⟩

/-- Witness for C10: the no-match call is a silent no-op. -/
theorem spec_C10_witness :
    updateJobState 2 .STOPPED [⟨1, 10, "a", .RUNNING, [10], false, false⟩]
      = [⟨1, 10, "a", .RUNNING, [10], false, false⟩] :=
  (spec_C10 2 .STOPPED _).1 (by decide)

-- helper lemmas about markJobAsCurrent

lemma countCurrent_markJobAsCurrent (id : Int) :
    ∀ (tbl : List Job),
      countCurrent (markJobAsCurrent id tbl) = (jobIds tbl).count id
  | [] => rfl
  | j :: rest => by
    have ih := countCurrent_markJobAsCurrent id rest
    by_cases h : j.jobId = id
    · simp [markJobAsCurrent, countCurrent, jobIds, List.count_cons, h,
        List.filter_cons] at ih ⊢
      omega
    · simp [markJobAsCurrent, countCurrent, jobIds, List.count_cons, h,
        List.filter_cons, Ne.symm h] at ih ⊢
      omega

lemma jobIds_markJobAsCurrent (id : Int) (tbl : List Job) :
    jobIds (markJobAsCurrent id tbl) = jobIds tbl := by
  simp [jobIds, markJobAsCurrent, List.map_map, Function.comp]

lemma states_markJobAsCurrent (id : Int) (tbl : List Job) :
    (markJobAsCurrent id tbl).map (fun k => k.state)
      = tbl.map (fun k => k.state) := by
  simp [markJobAsCurrent, List.map_map, Function.comp]

/-- C8 counterexample: on a table whose only job has id 1, the call
markJobAsCurrent 2 clears every flag and sets none, so no job at all is
current afterwards — the claim's "sets exactly one job's flag to true"
fails for jobIds absent from the table. -/
theorem spec_C8_counterexample :
    countCurrent
        (markJobAsCurrent 2 [⟨1, 10, "sleep 30", .RUNNING, [10], true, false⟩]) = 0
    ∧ (markJobAsCurrent 2
        [⟨1, 10, "sleep 30", .RUNNING, [10], true, false⟩]).length = 1 := by
  exact ⟨rfl, rfl⟩

/-- C8 (amended): when a job with the given id is in the table (with
distinct ids), markJobAsCurrent leaves exactly one job current — the one
with that id — and changes no jobId and no state. -/
theorem spec_C8 (id : Int) (tbl : List Job) (hN : (jobIds tbl).Nodup)
    (j : Job) (hj : j ∈ tbl) (hid : j.jobId = id) :
    countCurrent (markJobAsCurrent id tbl) = 1
    ∧ (∀ k ∈ markJobAsCurrent id tbl, k.is_current = true ↔ k.jobId = id)
    ∧ jobIds (markJobAsCurrent id tbl) = jobIds tbl
    ∧ (markJobAsCurrent id tbl).map (fun k => k.state)
        = tbl.map (fun k => k.state) := by
  refine ⟨?_, ?_, jobIds_markJobAsCurrent id tbl, states_markJobAsCurrent id tbl⟩
  · rw [countCurrent_markJobAsCurrent]
    exact List.count_eq_one_of_mem hN (hid ▸ List.mem_map_of_mem _ hj)
  · intro k hk
    obtain ⟨x, _, rfl⟩ := List.mem_map.mp hk
    simp

/-- Witness for C8 at a concrete two-job table. -/
theorem spec_C8_witness :
    countCurrent (markJobAsCurrent 1
      [⟨1, 10, "a", .RUNNING, [10], false, false⟩,
       ⟨2, 11, "b", .RUNNING, [11], true, false⟩]) = 1 :=
  (spec_C8 1 _ (by decide) ⟨1, 10, "a", .RUNNING, [10], false, false⟩
    (by decide) rfl).1

-- helper lemma for addJob's table layout

lemma getD_map_clearCurrent :
    ∀ (l : List Job) (k : Nat), k < l.length →
      (l.map clearCurrent).getD k default = clearCurrent (l.getD k default)
  | [], _, h => absurd h (by simp)
  | _ :: _, 0, _ => rfl
  | _ :: xs, k + 1, h => getD_map_clearCurrent xs k (by simpa using h)

/-- C2 counterexample: addJob called with initial state STOPPED (a job
that does not start in the background — it is registered when a
foreground job is suspended) still writes the creation notice, so the
notice is not emitted "only when the job starts in the background". -/
theorem spec_C2_counterexample :
    (addJob 42 "sleep 100" .STOPPED [42] initSt).2 = "[1] 42"
    ∧ "[1] 42" ≠ ""
    ∧ JobState.STOPPED ≠ JobState.RUNNING :=
  ⟨rfl, by decide, by decide⟩

/-- C2 (amended): addJob assigns the id nextJobId (incrementing the
counter), clears is_current on every previously existing job while
leaving them otherwise in place, appends the new job with
is_current = true, and emits the creation notice "[jobId] pgid" on every
call, whatever the initial state. -/
theorem spec_C2 (p : Int) (c : String) (st : JobState) (pids : List Int)
    (s : ShellSt) :
    (addJob p c st pids s).1.jobTable.getLast?
        = some ⟨s.nextJobId, p, c, st, pids, true, false⟩
    ∧ (addJob p c st pids s).1.jobTable.length = s.jobTable.length + 1
    ∧ (∀ k, k < s.jobTable.length →
        (addJob p c st pids s).1.jobTable.getD k default
          = clearCurrent (s.jobTable.getD k default))
    ∧ (addJob p c st pids s).1.nextJobId = s.nextJobId + 1
    ∧ (addJob p c st pids s).2
        = "[" ++ toString s.nextJobId ++ "] " ++ toString p
    ∧ ∀ st', (addJob p c st' pids s).2 = (addJob p c st pids s).2 := by
  refine ⟨List.getLast?_concat _, by simp [addJob], ?_, rfl, rfl, fun _ => rfl⟩
  intro k hk
  show ((s.jobTable.map clearCurrent) ++ [_]).getD k default = _
  rw [List.getD_append _ _ _ _ (by simpa using hk)]
  exact getD_map_clearCurrent s.jobTable k hk

/-- Witness for C2 at a concrete call. -/
theorem spec_C2_witness :
    (addJob 42 "sleep 30" .RUNNING [42] initSt).1.jobTable.getLast?
      = some ⟨1, 42, "sleep 30", .RUNNING, [42], true, false⟩ :=
  (spec_C2 42 "sleep 30" .RUNNING [42] initSt).1

-- helper lemma: printJobs refines the spec-side listing

lemma printJobs_eq_specListing :
    ∀ (tbl : List Job), printJobs tbl = specListing tbl
  | [] => rfl
  | j :: rest => by
    have ih := printJobs_eq_specListing rest
    by_cases h : j.state = JobState.DONE
    · simp [printJobs, specListing, List.filter_cons, h] at ih ⊢
      exact ih
    · simp [printJobs, specListing, List.filter_cons, h] at ih ⊢
      exact ⟨rfl, ih⟩

/-- C3 counterexample: the listing line for the background-launch
scenario carries five spaces between "Running" and the command (the
state is padded to 12 characters), not the four spaces the claim's
scenario line shows. -/
theorem spec_C3_counterexample :
    printJobs [⟨1, 42, "sleep 30", .RUNNING, [42], true, false⟩]
      = ["[1]+ Running     sleep 30 &"]
    ∧ "[1]+ Running     sleep 30 &" ≠ "[1]+ Running    sleep 30 &" :=
  ⟨rfl, by decide⟩

/-- C3 (amended): printJobs emits exactly one line per non-Done job and
no other line, each line being [jobId]<+|-> <State> followed by
12 - |State| padding spaces, the command, and " &" exactly for Running
jobs; the background-launch scenario prints [1]+ Running, five spaces,
then sleep 30 &. -/
theorem spec_C3 :
    (∀ tbl, printJobs tbl = specListing tbl)
    ∧ printJobs [⟨1, 42, "sleep 30", .RUNNING, [42], true, false⟩]
        = ["[1]+ Running     sleep 30 &"] :=
  ⟨printJobs_eq_specListing, rfl⟩

/-- C1 (code bug): the trace addJob, addJob, addJob, markJobAsCurrent 1,
removeJob 2 leaves a two-job table in which BOTH remaining jobs have
is_current = true — removeJob promotes the last entry unconditionally,
even though the removed job was not the current one — so "exactly one
job has is_current = true" fails on the code. -/
theorem spec_C1 :
    jobIds (runOps [.add 10 "a" .RUNNING [10], .add 11 "b" .RUNNING [11],
        .add 12 "c" .RUNNING [12], .markCurrent 1, .remove 2]).jobTable = [1, 3]
    ∧ countCurrent (runOps [.add 10 "a" .RUNNING [10], .add 11 "b" .RUNNING [11],
        .add 12 "c" .RUNNING [12], .markCurrent 1, .remove 2]).jobTable = 2 :=
  ⟨rfl, rfl⟩

-- helper lemmas about setBackCurrent and eraseFirst

@[simp] lemma jobIds_cons (j : Job) (l : List Job) :
    jobIds (j :: l) = j.jobId :: jobIds l := rfl

lemma setBackCurrent_length : ∀ (l : List Job), (setBackCurrent l).length = l.length
  | [] => rfl
  | [_] => rfl
  | j :: k :: rest => by
    show (j :: setBackCurrent (k :: rest)).length = _
    simp [setBackCurrent_length (k :: rest)]

lemma setBackCurrent_getLast? :
    ∀ (l : List Job), (setBackCurrent l).getLast?
      = l.getLast?.map (fun k => {k with is_current := true})
  | [] => rfl
  | [_] => rfl
  | j :: k :: rest => by
    have ih := setBackCurrent_getLast? (k :: rest)
    show (j :: setBackCurrent (k :: rest)).getLast? = _
    cases hS : setBackCurrent (k :: rest) with
    | nil =>
      have hlen := setBackCurrent_length (k :: rest)
      rw [hS] at hlen
      simp at hlen
    | cons a l' =>
      rw [List.getLast?_cons_cons, ← hS, ih, List.getLast?_cons_cons]

lemma jobIds_setBackCurrent : ∀ (l : List Job), jobIds (setBackCurrent l) = jobIds l
  | [] => rfl
  | [_] => rfl
  | j :: k :: rest => by
    show jobIds (j :: setBackCurrent (k :: rest)) = _
    rw [jobIds_cons, jobIds_setBackCurrent (k :: rest)]
    rfl

lemma not_mem_jobIds_eraseFirst (id : Int) :
    ∀ (tbl : List Job), (jobIds tbl).Nodup → id ∉ jobIds (eraseFirst id tbl)
  | [], _ => by simp [eraseFirst, jobIds]
  | j :: rest, hN => by
    rw [jobIds_cons, List.nodup_cons] at hN
    by_cases h : j.jobId = id
    · rw [eraseFirst, if_pos h]
      exact h ▸ hN.1
    · rw [eraseFirst, if_neg h, jobIds_cons]
      intro hmem
      rcases List.mem_cons.mp hmem with heq | hmem'
      · exact h heq.symm
      · exact not_mem_jobIds_eraseFirst id rest hN.2 hmem'

lemma jobIds_eraseFirst_sublist (id : Int) :
    ∀ (tbl : List Job), List.Sublist (jobIds (eraseFirst id tbl)) (jobIds tbl)
  | [] => List.Sublist.refl _
  | j :: rest => by
    by_cases h : j.jobId = id
    · rw [eraseFirst, if_pos h]
      exact List.sublist_cons_self _ _
    · rw [eraseFirst, if_neg h, jobIds_cons, jobIds_cons]
      exact List.Sublist.cons₂ _ (jobIds_eraseFirst_sublist id rest)

/-- C5: removing the current job from a table with distinct ids, when at
least one other job remains, erases that id from the table and promotes
the most recently inserted remaining job (the last entry) to current, so
the remaining non-empty table keeps at least one current job. -/
theorem spec_C5 (id : Int) (tbl : List Job) (hN : (jobIds tbl).Nodup)
    (j : Job) (hj : j ∈ tbl) (hid : j.jobId = id) (_hcur : j.is_current = true)
    (hrest : eraseFirst id tbl ≠ []) :
    removeJob id tbl ≠ []
    ∧ (∀ k ∈ removeJob id tbl, k.jobId ≠ id)
    ∧ (removeJob id tbl).getLast?
        = ((eraseFirst id tbl).getLast?).map (fun k => {k with is_current := true})
    ∧ ∃ k ∈ removeJob id tbl, k.is_current = true := by
  have hany : tbl.any (fun j => j.jobId == id) = true :=
    List.any_eq_true.mpr ⟨j, hj, by simp [hid]⟩
  have hrw : removeJob id tbl = setBackCurrent (eraseFirst id tbl) := by
    rw [removeJob, if_pos hany]
  have hne : removeJob id tbl ≠ [] := by
    rw [hrw]
    intro h
    have := congrArg List.length h
    rw [setBackCurrent_length] at this
    exact hrest (List.length_eq_zero.mp this)
  have hlast : (removeJob id tbl).getLast?
      = ((eraseFirst id tbl).getLast?).map (fun k => {k with is_current := true}) := by
    rw [hrw, setBackCurrent_getLast?]
  refine ⟨hne, ?_, hlast, ?_⟩
  · intro k hk heq
    have hmem : k.jobId ∈ jobIds (setBackCurrent (eraseFirst id tbl)) :=
      List.mem_map_of_mem _ (hrw ▸ hk)
    rw [jobIds_setBackCurrent] at hmem
    exact not_mem_jobIds_eraseFirst id tbl hN (heq ▸ hmem)
  · obtain ⟨g, hg⟩ := Option.ne_none_iff_exists'.mp
      (fun h => hrest (List.getLast?_eq_none_iff.mp h))
    refine ⟨{g with is_current := true}, ?_, rfl⟩
    exact List.mem_of_getLast?_eq_some (by rw [hlast, hg]; rfl)

/-- Witness for C5: removing the current job 1 from a two-job table
promotes job 2. -/
theorem spec_C5_witness :
    removeJob 1 [⟨1, 10, "a", .RUNNING, [10], true, false⟩,
        ⟨2, 11, "b", .RUNNING, [11], false, false⟩] ≠ []
    ∧ (removeJob 1 [⟨1, 10, "a", .RUNNING, [10], true, false⟩,
        ⟨2, 11, "b", .RUNNING, [11], false, false⟩]).getLast?
      = ((eraseFirst 1 [⟨1, 10, "a", .RUNNING, [10], true, false⟩,
        ⟨2, 11, "b", .RUNNING, [11], false, false⟩]).getLast?).map
          (fun k => {k with is_current := true}) := by
  have h := spec_C5 1
    [⟨1, 10, "a", .RUNNING, [10], true, false⟩,
     ⟨2, 11, "b", .RUNNING, [11], false, false⟩]
    (by decide) ⟨1, 10, "a", .RUNNING, [10], true, false⟩ (by decide) rfl rfl
    (by decide)
  exact ⟨h.1, h.2.2.1⟩

-- invariant machinery for the operation sequences of C4

lemma jobIds_map_clearCurrent (l : List Job) :
    jobIds (l.map clearCurrent) = jobIds l := by
  simp [jobIds, clearCurrent, List.map_map, Function.comp]

lemma jobIds_addJob (p : Int) (c : String) (st : JobState) (pids : List Int)
    (s : ShellSt) :
    jobIds (addJob p c st pids s).1.jobTable = jobIds s.jobTable ++ [s.nextJobId] := by
  show jobIds ((s.jobTable.map clearCurrent) ++ [_]) = _
  rw [jobIds, List.map_append, ← jobIds, jobIds_map_clearCurrent]
  rfl

lemma stepInv (s : ShellSt) (op : Op) (h : TableInv s) : TableInv (step s op) := by
  obtain ⟨hPW, hBound, hPos⟩ := h
  cases op with
  | add p c st pids =>
    refine ⟨?_, ?_, ?_⟩
    · rw [step, jobIds_addJob]
      refine List.pairwise_append.mpr ⟨hPW, List.pairwise_singleton _ _, ?_⟩
      intro a ha b hb
      rw [List.mem_singleton] at hb
      exact hb ▸ (hBound a ha).2
    · intro i hi
      rw [step, jobIds_addJob] at hi
      show 1 ≤ i ∧ i < s.nextJobId + 1
      rcases List.mem_append.mp hi with hold | hnew
      · have := hBound i hold
        omega
      · rw [List.mem_singleton] at hnew
        omega
    · show 1 ≤ s.nextJobId + 1
      omega
  | remove id =>
    by_cases hb : s.jobTable.any (fun j => j.jobId == id)
    · have hrw : removeJob id s.jobTable
          = setBackCurrent (eraseFirst id s.jobTable) := by
        rw [removeJob, if_pos hb]
      have hids : jobIds (removeJob id s.jobTable)
          = jobIds (eraseFirst id s.jobTable) := by
        rw [hrw, jobIds_setBackCurrent]
      refine ⟨?_, ?_, hPos⟩
      · show (jobIds (removeJob id s.jobTable)).Pairwise (· < ·)
        rw [hids]
        exact List.Pairwise.sublist (jobIds_eraseFirst_sublist id s.jobTable) hPW
      · intro i hi
        have hi' : i ∈ jobIds (removeJob id s.jobTable) := hi
        rw [hids] at hi'
        exact hBound i ((jobIds_eraseFirst_sublist id s.jobTable).subset hi')
    · have hrw : removeJob id s.jobTable = s.jobTable := by
        rw [removeJob, if_neg hb]
      refine ⟨?_, ?_, hPos⟩
      · show (jobIds (removeJob id s.jobTable)).Pairwise (· < ·)
        rw [hrw]; exact hPW
      · intro i hi
        have hi' : i ∈ jobIds (removeJob id s.jobTable) := hi
        rw [hrw] at hi'
        exact hBound i hi'
  | markCurrent id =>
    refine ⟨?_, ?_, hPos⟩
    · show (jobIds (markJobAsCurrent id s.jobTable)).Pairwise (· < ·)
      rw [jobIds_markJobAsCurrent]; exact hPW
    · intro i hi
      have hi' : i ∈ jobIds (markJobAsCurrent id s.jobTable) := hi
      rw [jobIds_markJobAsCurrent] at hi'
      exact hBound i hi'

lemma foldlInv : ∀ (ops : List Op) (s : ShellSt),
    TableInv s → TableInv (List.foldl step s ops)
  | [], _, h => h
  | op :: ops, s, h => foldlInv ops (step s op) (stepInv s op h)

lemma runOpsInv (ops : List Op) : TableInv (runOps ops) :=
  foldlInv ops initSt
    ⟨List.Pairwise.nil, by simp [initSt, jobIds], by norm_num [initSt]⟩

/-- C4: after any sequence of addJob/removeJob/markJobAsCurrent
operations, the live jobIds are strictly increasing in insertion order
and positive; a further addJob appends the fresh id nextJobId, which is
strictly greater than every live id, so no id is ever reassigned while a
live job holds it. -/
theorem spec_C4 (ops : List Op) :
    (jobIds (runOps ops).jobTable).Pairwise (· < ·)
    ∧ (∀ i ∈ jobIds (runOps ops).jobTable, 1 ≤ i)
    ∧ (∀ p c st pids,
        jobIds ((step (runOps ops) (.add p c st pids)).jobTable)
          = jobIds (runOps ops).jobTable ++ [(runOps ops).nextJobId])
    ∧ ∀ i ∈ jobIds (runOps ops).jobTable, i < (runOps ops).nextJobId := by
  obtain ⟨hPW, hBound, _⟩ := runOpsInv ops
  exact ⟨hPW, fun i hi => (hBound i hi).1,
    fun p c st pids => jobIds_addJob p c st pids (runOps ops),
    fun i hi => (hBound i hi).2⟩

/-- Witness for C4 after one concrete addJob. -/
theorem spec_C4_witness :
    (1 : Int) ≤ 1
    ∧ (1 : Int) < (runOps [.add 10 "a" .RUNNING [10]]).nextJobId :=
  ⟨(spec_C4 [.add 10 "a" .RUNNING [10]]).2.1 1 (by decide),
   (spec_C4 [.add 10 "a" .RUNNING [10]]).2.2.2 1 (by decide)⟩

-- helper lemmas for the pipeline executor

lemma range_map_getD {α : Type} (d : α) : ∀ (l : List α),
    (List.range l.length).map (fun i => l.getD i d) = l
  | [] => rfl
  | x :: xs => by
    rw [List.length_cons, List.range_succ_eq_map, List.map_cons, List.map_map]
    congr 1
    show (List.range xs.length).map (fun i => xs.getD i d) = xs
    exact range_map_getD d xs

lemma getD_map_range {α : Type} (f : Nat → α) (d : α) {i n : Nat} (h : i < n) :
    ((List.range n).map f).getD i d = f i := by
  simp [List.getD_eq_getElem?_getD, List.getElem?_map, List.getElem?_range h]

/-- C6: for an N-stage pipeline (N ≥ 1) the job-control executePipeline
creates exactly N-1 pipes and forks exactly N children carrying the
supplied pids in order; every member's process group equals the first
stage's pid (setpgid(0,0) in the first child, setpgid(0,pgid) in the
rest, mirrored by the parent); and a stage with no file redirections
whose command resolves and execs reads from pipe i-1's read end when
i > 0 and writes to pipe i's write end when i < N-1. -/
theorem spec_C6 (env : ExecEnv) (pl : List ParsedCommand) (shellPgid : Int)
    (pids : List Int) (hN : 1 ≤ pl.length) (hpids : pids.length = pl.length) :
    (executePipeline env pl shellPgid pids).numPipes = pl.length - 1
    ∧ (executePipeline env pl shellPgid pids).children.length = pl.length
    ∧ (executePipeline env pl shellPgid pids).children.map (fun c => c.pid) = pids
    ∧ (∀ c ∈ (executePipeline env pl shellPgid pids).children,
        c.pgid = ((executePipeline env pl shellPgid pids).children.getD 0 default).pid)
    ∧ ∀ i, i < pl.length →
        (pl.getD i default).inputFile = "" →
        (pl.getD i default).outputFile = "" →
        (pl.getD i default).errorFile = "" →
        ∀ p, env.resolve ((pl.getD i default).args.headD "") = some p →
          env.execOk p = true →
          ((executePipeline env pl shellPgid pids).children.getD i default).outcome
            = .running p (if 0 < i then .pipeRead (i - 1) else .inherit)
                (if i < pl.length - 1 then .pipeWrite i else .inherit) := by
  have hg0 : ((executePipeline env pl shellPgid pids).children.getD 0 default)
      = ⟨pids.getD 0 0, pids.getD 0 0, childRunJC env pl 0⟩ :=
    getD_map_range _ _ hN
  refine ⟨rfl, by simp [executePipeline], ?_, ?_, ?_⟩
  · show ((List.range pl.length).map _).map _ = pids
    rw [List.map_map]
    have : (fun i => pids.getD i 0) = ((fun c : ChildProc => c.pid) ∘
        (fun i => (⟨pids.getD i 0, pids.getD 0 0, childRunJC env pl i⟩ : ChildProc))) := rfl
    rw [← this, ← hpids, range_map_getD]
  · intro c hc
    obtain ⟨i, _, rfl⟩ := List.mem_map.mp hc
    rw [hg0]
  · intro i hi hin hout herr p hres hexec
    have hg : ((executePipeline env pl shellPgid pids).children.getD i default)
        = ⟨pids.getD i 0, pids.getD 0 0, childRunJC env pl i⟩ :=
      getD_map_range _ _ hi
    rw [hg]
    show childRunJC env pl i = _
    simp only [List.getD_eq_getElem?_getD, List.headD_eq_head?_getD]
      at hin hout herr hres
    simp [childRunJC, hin, hout, herr, hres, hexec]

/-- Witness for C6 at a concrete two-stage pipeline. -/
theorem spec_C6_witness :
    ((executePipeline ⟨fun _ => some "/bin/s", fun _ => true, fun _ => true⟩
        [⟨["a"], "", "", "", false, false⟩, ⟨["b"], "", "", "", false, false⟩]
        7 [30, 31]).children.getD 1 default).outcome
      = .running "/bin/s" (.pipeRead 0) .inherit := by
  have h := (spec_C6 ⟨fun _ => some "/bin/s", fun _ => true, fun _ => true⟩
    [⟨["a"], "", "", "", false, false⟩, ⟨["b"], "", "", "", false, false⟩]
    7 [30, 31] (by decide) rfl).2.2.2.2 1 (by decide) rfl rfl rfl "/bin/s" rfl rfl
  simpa using h

/-- C7: in a pipeline child, a failing open of the input redirection
target exits 1; with input fine, a failing open of the output target
exits 1; with redirections fine, an unresolvable command exits 127 and a
failing execve exits 1; and in the job-control executor each stage's
outcome is its own childRunJC, computed from that stage alone, so a
failure terminates only that child. -/
theorem spec_C7 (env : ExecEnv) (pl : List ParsedCommand) (i : Nat)
    (_hi : i < pl.length) :
    ((pl.getD i default).inputFile ≠ "" →
      env.openOk (pl.getD i default).inputFile = false →
      childRun env pl i = .exited 1)
    ∧ (((pl.getD i default).inputFile = "" ∨
          env.openOk (pl.getD i default).inputFile = true) →
        (pl.getD i default).outputFile ≠ "" →
        env.openOk (pl.getD i default).outputFile = false →
        childRun env pl i = .exited 1)
    ∧ (((pl.getD i default).inputFile = "" ∨
          env.openOk (pl.getD i default).inputFile = true) →
        ((pl.getD i default).outputFile = "" ∨
          env.openOk (pl.getD i default).outputFile = true) →
        env.resolve ((pl.getD i default).args.headD "") = none →
        childRun env pl i = .exited 127)
    ∧ (((pl.getD i default).inputFile = "" ∨
          env.openOk (pl.getD i default).inputFile = true) →
        ((pl.getD i default).outputFile = "" ∨
          env.openOk (pl.getD i default).outputFile = true) →
        ∀ p, env.resolve ((pl.getD i default).args.headD "") = some p →
          env.execOk p = false →
          childRun env pl i = .exited 1)
    ∧ ∀ (pgid : Int) (pids : List Int) (j : Nat), j < pl.length →
        ((executePipeline env pl pgid pids).children.getD j default).outcome
          = childRunJC env pl j := by
  refine ⟨?_, ?_, ?_, ?_, ?_⟩
  · intro h1 h2
    simp only [List.getD_eq_getElem?_getD] at h1 h2
    simp [childRun, h1, h2]
  · rintro (h1 | h1) h2 h3
    all_goals simp only [List.getD_eq_getElem?_getD] at h1 h2 h3
    all_goals simp [childRun, h1, h2, h3]
  · rintro (h1 | h1) (h2 | h2) h3
    all_goals simp only [List.getD_eq_getElem?_getD, List.headD_eq_head?_getD]
      at h1 h2 h3
    all_goals simp [childRun, h1, h2, h3]
  · rintro (h1 | h1) (h2 | h2) p h3 h4
    all_goals simp only [List.getD_eq_getElem?_getD, List.headD_eq_head?_getD]
      at h1 h2 h3 h4
    all_goals simp [childRun, h1, h2, h3, h4]
  · intro pgid pids j hj
    have hg : ((executePipeline env pl pgid pids).children.getD j default)
        = ⟨pids.getD j 0, pids.getD 0 0, childRunJC env pl j⟩ :=
      getD_map_range _ _ hj
    rw [hg]

/-- Witness for C7: a child whose input redirection target cannot be
opened exits with status 1. -/
theorem spec_C7_witness :
    childRun ⟨fun _ => some "/bin/s", fun _ => false, fun _ => true⟩
      [⟨["a"], "missing.txt", "", "", false, false⟩] 0 = .exited 1 :=
  (spec_C7 ⟨fun _ => some "/bin/s", fun _ => false, fun _ => true⟩
    [⟨["a"], "missing.txt", "", "", false, false⟩] 0 (by decide)).1
    (by decide) rfl

end TinyShell
